import Mathlib

/-!
# Verification of the checklist-equipos application

Shallow embedding of the checklist/approval application (main revision
`src/app.py`; the weekly-window helper `monday_to_saturday_range` comes from
the `check list - Despachos` revision, the only place it is defined).

The spreadsheet-backed row store is modelled as lists of typed records, one
list per worksheet, mirroring the headers created by `ensure_worksheets`.
Python's `str.strip()` / `str.lower()` / `str.upper()` are modelled on the
underlying character lists (ASCII data, which is all the app stores in key
columns).
-/

/-- Whitespace test used by `str.strip()` (the app only ever strips ASCII
whitespace around identifiers). -/
def wsChar (c : Char) : Bool := c.isWhitespace

/-- Strip whitespace from both ends of a character list. -/
def stripChars (cs : List Char) : List Char :=
  ((cs.dropWhile wsChar).reverse.dropWhile wsChar).reverse

/-- Python `s.strip()`. -/
def pyStrip (s : String) : String := ⟨stripChars s.data⟩

/-- Python `s.lower()` (ASCII). -/
def pyLower (s : String) : String := ⟨s.data.map Char.toLower⟩

/-- Python `s.upper()` (ASCII). -/
def pyUpper (s : String) : String := ⟨s.data.map Char.toUpper⟩

/-- The row-key normalisation the app applies everywhere:
`str(x).strip().lower()`. -/
def normKey (s : String) : String := pyLower (pyStrip s)

lemma head?_dropWhile_false {p : Char → Bool} {l : List Char} {x : Char}
    (h : (l.dropWhile p).head? = some x) : p x = false := by
  induction l with
  | nil => simp [List.dropWhile] at h
  | cons a as ih =>
    rw [List.dropWhile_cons] at h
    by_cases hp : p a
    · simp [hp] at h
      exact ih h
    · simp [hp] at h
      subst h
      simpa using hp

lemma dropWhile_eq_self_of_head? {p : Char → Bool} {l : List Char}
    (h : ∀ x, l.head? = some x → p x = false) : l.dropWhile p = l := by
  cases l with
  | nil => rfl
  | cons a as =>
    rw [List.dropWhile_cons, h a rfl]
    simp

lemma dropWhile_suffix (p : Char → Bool) (l : List Char) :
    l.dropWhile p <:+ l := by
  induction l with
  | nil => exact List.suffix_refl _
  | cons a as ih =>
    rw [List.dropWhile_cons]
    by_cases hp : p a
    · simp only [hp, if_true]
      exact ih.trans (List.suffix_cons a as)
    · simp only [hp, if_false]
      exact List.suffix_refl _

lemma dropWhile_dropWhile (p : Char → Bool) (l : List Char) :
    (l.dropWhile p).dropWhile p = l.dropWhile p := by
  apply dropWhile_eq_self_of_head?
  intro x hx
  exact head?_dropWhile_false hx

/-- `stripChars` is idempotent: stripping a stripped list changes nothing. -/
lemma stripChars_idem (cs : List Char) :
    stripChars (stripChars cs) = stripChars cs := by
  unfold stripChars
  have hsuf : (cs.dropWhile wsChar).reverse.dropWhile wsChar <:+
      (cs.dropWhile wsChar).reverse := dropWhile_suffix _ _
  have hpre : ((cs.dropWhile wsChar).reverse.dropWhile wsChar).reverse <+:
      cs.dropWhile wsChar := by
    have h := List.reverse_prefix.mpr hsuf
    simpa using h
  have h1 : (((cs.dropWhile wsChar).reverse.dropWhile wsChar).reverse).dropWhile wsChar
      = ((cs.dropWhile wsChar).reverse.dropWhile wsChar).reverse := by
    apply dropWhile_eq_self_of_head?
    intro x hx
    obtain ⟨r, hr⟩ := hpre
    have hhead : (cs.dropWhile wsChar).head? = some x := by
      rw [← hr]
      cases hP : ((cs.dropWhile wsChar).reverse.dropWhile wsChar).reverse with
      | nil => rw [hP] at hx; simp at hx
      | cons y ys =>
        rw [hP] at hx
        simp at hx
        simp [hP, hx]
    exact head?_dropWhile_false hhead
  rw [h1, List.reverse_reverse, dropWhile_dropWhile]

/-- Python `strip` is idempotent. -/
lemma pyStrip_idem (s : String) : pyStrip (pyStrip s) = pyStrip s := by
  unfold pyStrip
  simp [stripChars_idem]

lemma normKey_pyStrip (s : String) : normKey (pyStrip s) = normKey s := by
  unfold normKey
  rw [pyStrip_idem]

lemma normKey_of_stripped {s : String} (h : pyStrip s = s) :
    normKey s = pyLower s := by
  unfold normKey
  rw [h]

/-!
## Data model

One structure per worksheet, fields in the header order written by
`ensure_worksheets`.  `gspread.get_all_records` returns each cell as a Python
value (bool for checkbox cells, int for numeric cells, str otherwise); the
`is_active` cell, whose handling matters to the claims, is therefore modelled
as a `PyVal`.  A missing column (`u.get("is_active", True)`) is `none`.
Submission dates (ISO strings parsed by pandas) are modelled as proleptic
Gregorian ordinals (`Nat`), the representation `datetime.date` itself uses.
-/

/-- A dynamically typed spreadsheet cell value as returned by
`gspread.get_all_records`. -/
inductive PyVal where
  | bool (b : Bool)
  | int (n : Int)
  | str (s : String)
deriving DecidableEq

/-- Python truthiness, `bool(v)`, on the cell values above. -/
def truthy : PyVal → Bool
  | .bool b => b
  | .int n => n ≠ 0
  | .str s => s ≠ ""

/-- A row of the `users` worksheet
(`username, password_hash, role, full_name, is_active, created_at`). -/
structure UserRow where
  username : String
  password_hash : String
  role : String
  full_name : String
  is_active : Option PyVal
  created_at : String
deriving DecidableEq

/-- `bool(u.get("is_active", True))`: the default is `True` when the column is
absent, otherwise Python truthiness of the stored cell. -/
def isActiveTruthy (u : UserRow) : Bool :=
  match u.is_active with
  | none => true
  | some v => truthy v

/-- The session dict the app keeps for the logged-in user; the workflow only
reads `username` and `full_name` from it. -/
structure UserInfo where
  username : String
  full_name : String
deriving DecidableEq

/-- A row of the `submissions` worksheet.  `date` is the ordinal of the ISO
date written by `_today_iso()`. -/
structure Submission where
  submission_id : String
  date : Nat
  created_at : String
  equipo : String
  operador_username : String
  operador_full_name : String
  estado_general : String
  nota : String
  firma_operador_b64 : String
  status : String
  updated_at : String
deriving DecidableEq

/-- A row of the `submission_items` worksheet. -/
structure ItemRow where
  submission_id : String
  item_id : String
  item_text : String
  estado : String
  comentario : String
deriving DecidableEq

/-- A row of the `photos` worksheet. -/
structure PhotoRow where
  submission_id : String
  item_id : String
  filename : String
  photo_b64 : String
deriving DecidableEq

/-- A row of the `approvals` worksheet. -/
structure ApprovalRow where
  submission_id : String
  approved_at : String
  supervisor_username : String
  supervisor_full_name : String
  conforme : String
  observaciones : String
  firma_supervisor_b64 : String
  pdf_b64 : String
deriving DecidableEq

/-- The five worksheets of the backing spreadsheet. -/
structure DBState where
  users : List UserRow
  submissions : List Submission
  submission_items : List ItemRow
  photos : List PhotoRow
  approvals : List ApprovalRow
deriving DecidableEq

/-!
## Identity store (`get_user`, `authenticate`)

`hash_password` is SHA-256, an external one-way digest; it is passed to the
operations as an abstract function `h : String → String` so every theorem
holds for the real digest.
-/

/-- `get_user`: first row of `users` whose username matches case-insensitively
(`str(u.get("username","")).strip().lower() == username.strip().lower()`). -/
def get_user (users : List UserRow) (username : String) : Option UserRow :=
  users.find? (fun u => normKey u.username == normKey username)

/-- `authenticate(username, password)`: `None` when the user is not found,
when `bool(u.get("is_active", True))` is falsy, or when the stored hash
differs from `hash_password(password)`; otherwise the user row. -/
def authenticate (h : String → String) (users : List UserRow)
    (username password : String) : Option UserRow :=
  match get_user users username with
  | none => none
  | some u =>
    if ¬ isActiveTruthy u then none
    else if u.password_hash ≠ h password then none
    else some u

lemma get_user_eq_of_mem (users : List UserRow) (username : String) (u : UserRow)
    (hu : u ∈ users) (hkey : normKey u.username = normKey username)
    (huniq : users.Pairwise (fun a b => normKey a.username ≠ normKey b.username)) :
    get_user users username = some u := by
  induction users with
  | nil => cases hu
  | cons v vs ih =>
    rw [List.pairwise_cons] at huniq
    rcases List.mem_cons.mp hu with h1 | h1
    · subst h1
      unfold get_user
      exact List.find?_cons_of_pos _ (by simp [hkey])
    · have hvne : normKey v.username ≠ normKey u.username :=
        huniq.1 u h1
      have hfalse : ¬ (normKey v.username == normKey username) = true := by
        simp only [beq_iff_eq]
        rw [← hkey]
        exact hvne
      have hstep : List.find? (fun w => normKey w.username == normKey username) (v :: vs)
          = List.find? (fun w => normKey w.username == normKey username) vs :=
        List.find?_cons_of_neg (p := fun w => normKey w.username == normKey username) vs hfalse
      unfold get_user at *
      rw [hstep]
      exact ih h1 huniq.2

/-- **C7.**  `authenticate` returns the user record exactly when a user row
with that username exists (case-insensitive match, the `users` sheet holding
pairwise distinct usernames as the identity store guarantees), the stored
`is_active` cell is truthy (its `bool(...)` with default `True`), and the
stored `password_hash` equals the hash of the supplied password; in every
other case it rejects (`None`). -/
theorem C7_authenticate_iff (h : String → String) (users : List UserRow)
    (username password : String) (u : UserRow)
    (huniq : users.Pairwise (fun a b => normKey a.username ≠ normKey b.username)) :
    authenticate h users username password = some u ↔
      (u ∈ users ∧ normKey u.username = normKey username ∧
       isActiveTruthy u = true ∧ u.password_hash = h password) := by
  constructor
  · intro ha
    unfold authenticate at ha
    cases hg : get_user users username with
    | none => rw [hg] at ha; simp at ha
    | some u' =>
      rw [hg] at ha
      by_cases hact : isActiveTruthy u'
      · by_cases hpw : u'.password_hash = h password
        · simp [hact, hpw] at ha
          subst ha
          refine ⟨List.mem_of_find?_eq_some hg, ?_, hact, hpw⟩
          have hbeq := List.find?_some hg
          exact eq_of_beq hbeq
        · simp [hact, hpw] at ha
      · simp [hact] at ha
  · rintro ⟨hmem, hkey, hact, hpw⟩
    have hg := get_user_eq_of_mem users username u hmem hkey huniq
    unfold authenticate
    rw [hg]
    simp [hact, hpw]

theorem C7_authenticate_iff_witness :
    authenticate (fun s => s ++ "#")
        [⟨"Admin", "pw#", "supervisor", "Administrador", some (.bool true), "t0"⟩]
        "admin" "pw"
      = some ⟨"Admin", "pw#", "supervisor", "Administrador", some (.bool true), "t0"⟩ :=
  (C7_authenticate_iff (fun s => s ++ "#") _ "admin" "pw" _ (by simp)).mpr
    ⟨by simp, by decide, by decide, by decide⟩

/-- **C10.**  In the main revision `authenticate` decides activeness via
Python truthiness of the stored `is_active` cell with default `True`: a row
whose `is_active` column is missing is active; a row whose cell holds any
non-empty string — including `"FALSE"` and `"false"` — is active; the check
is falsy exactly for the boolean `False`, the integer `0`, and the empty
string; and `authenticate` never returns a row whose check is falsy. -/
theorem C10_is_active_truthiness :
    (∀ u : UserRow, u.is_active = none → isActiveTruthy u = true)
    ∧ (∀ (u : UserRow) (s : String), s ≠ "" → u.is_active = some (.str s) →
        isActiveTruthy u = true)
    ∧ (∀ u : UserRow, isActiveTruthy u = false ↔
        (u.is_active = some (.bool false) ∨ u.is_active = some (.int 0) ∨
         u.is_active = some (.str "")))
    ∧ (∀ (h : String → String) (users : List UserRow) (un pw : String)
        (u : UserRow), authenticate h users un pw = some u →
          isActiveTruthy u = true) := by
  refine ⟨?_, ?_, ?_, ?_⟩
  · intro u hu
    unfold isActiveTruthy
    rw [hu]
  · intro u s hs hu
    unfold isActiveTruthy
    rw [hu]
    simp [truthy, hs]
  · intro u
    unfold isActiveTruthy
    cases hu : u.is_active with
    | none => simp
    | some v =>
      cases v with
      | bool b => cases b <;> simp [truthy]
      | int n => simp [truthy]
      | str s => simp [truthy]
  · intro h users un pw u ha
    unfold authenticate at ha
    cases hg : get_user users un with
    | none => rw [hg] at ha; simp at ha
    | some u' =>
      rw [hg] at ha
      by_cases hact : isActiveTruthy u'
      · by_cases hpw : u'.password_hash = h pw
        · simp [hact, hpw] at ha
          subst ha
          exact hact
        · simp [hact, hpw] at ha
      · simp [hact] at ha

theorem C10_is_active_truthiness_witness :
    isActiveTruthy ⟨"oper1", "h1", "operador", "Oper", some (.str "FALSE"), "t1"⟩
      = true :=
  C10_is_active_truthiness.2.1 _ "FALSE" (by decide) rfl

/-!
## User administration (supervisor page `Usuarios`)
-/

/-- `ws_delete_row_by_key` on the `users` sheet: removes the first row whose
key cell matches case-insensitively, leaving every other row in place. -/
def ws_delete_row_by_key_users : List UserRow → String → List UserRow
  | [], _ => []
  | r :: rest, k =>
    if normKey r.username == normKey k then rest
    else r :: ws_delete_row_by_key_users rest k

/-- The `Eliminar` button handler: the typed username is stripped
(`st.text_input(...).strip()`); if it lowercases to `"admin"` the deletion is
refused (`"No se permite borrar admin."`), otherwise the first matching user
row is deleted. -/
def eliminarUsuario (users : List UserRow) (delUserRaw : String) : List UserRow :=
  let del_user := pyStrip delUserRaw
  if pyLower del_user == "admin" then users
  else ws_delete_row_by_key_users users del_user

lemma mem_ws_delete_of_ne {users : List UserRow} {k : String} {u : UserRow}
    (hu : u ∈ users) (hne : normKey u.username ≠ normKey k) :
    u ∈ ws_delete_row_by_key_users users k := by
  induction users with
  | nil => cases hu
  | cons r rest ih =>
    unfold ws_delete_row_by_key_users
    rcases List.mem_cons.mp hu with h1 | h1
    · subst h1
      have : (normKey u.username == normKey k) = false := by
        simp [hne]
      simp [this]
    · by_cases hr : (normKey r.username == normKey k) = true
      · simp only [hr, if_true]
        exact h1
      · simp only [hr, if_false]
        exact List.mem_cons.mpr (Or.inr (ih h1))

/-- **C9.**  The delete-user operation refuses to delete the bootstrap
administrative account: whatever username is typed, every stored user row
whose username normalises to `"admin"` (so `"admin"` in any letter case)
survives the `Eliminar` handler. -/
theorem C9_admin_not_deletable (users : List UserRow) (delUserRaw : String)
    (u : UserRow) (hu : u ∈ users) (hadmin : normKey u.username = "admin") :
    u ∈ eliminarUsuario users delUserRaw := by
  unfold eliminarUsuario
  by_cases hblock : (pyLower (pyStrip delUserRaw) == "admin") = true
  · simp only [hblock, if_true]
    exact hu
  · simp only [hblock, if_false]
    apply mem_ws_delete_of_ne hu
    rw [hadmin]
    intro hc
    apply hblock
    rw [normKey_pyStrip] at hc
    unfold normKey at hc
    rw [← hc]
    simp
theorem C9_admin_not_deletable_witness :
    (⟨"admin", "h0", "supervisor", "Administrador", some (.bool true), "t0"⟩ : UserRow)
      ∈ eliminarUsuario
        [⟨"admin", "h0", "supervisor", "Administrador", some (.bool true), "t0"⟩]
        "ADMIN" :=
  C9_admin_not_deletable _ "ADMIN" _ (by simp) (by decide)

/-- Regex check of the `Guardar usuario` handler:
`re.match(r"^[a-zA-Z0-9_.-]{3,}$", username)` (with the emptiness test
subsumed by the length bound). -/
def validUsername (u : String) : Bool :=
  decide (3 ≤ u.length) &&
    u.data.all (fun c => c.isAlpha || c.isDigit || c == '_' || c == '.' || c == '-')

/-- `ws_update_row_by_key` on the `users` sheet with the update dict the
handler builds: `role`, `full_name`, `is_active` always, `password_hash`
only when a password was typed; all other cells of the row, and all other
rows, are untouched.  Returns `none` when no row matches. -/
def ws_update_row_by_key_users (users : List UserRow) (k : String)
    (role fullName : String) (active : Bool) (pwHash : Option String) :
    Option (List UserRow) :=
  match users with
  | [] => none
  | r :: rest =>
    if normKey r.username == normKey k then
      some ({ r with
                role := role,
                full_name := fullName,
                is_active := some (.bool active),
                password_hash := pwHash.getD r.password_hash } :: rest)
    else
      (ws_update_row_by_key_users rest k role fullName active pwHash).map (r :: ·)

/-- Outcome of the `Guardar usuario` button handler. -/
inductive SaveUserResult where
  | invalidUsername
  | passwordRequired
  | created (users : List UserRow)
  | updated (users : List UserRow)
  | updateFailed
deriving DecidableEq

/-- The `Guardar usuario` button handler: strip the typed username, validate
it, then either append a fresh row (password mandatory) or update the
existing row in place, hashing the password only when one was typed. -/
def guardarUsuario (h : String → String) (users : List UserRow)
    (usernameRaw role_new full_name : String) (active : Bool) (pw : String)
    (now : String) : SaveUserResult :=
  let username := pyStrip usernameRaw
  if ¬ validUsername username then .invalidUsername
  else
    match users.find? (fun u => normKey u.username == pyLower username) with
    | none =>
      if pw == "" then .passwordRequired
      else .created (users ++
        [⟨username, h pw, role_new, full_name, some (.bool active), now⟩])
    | some _ =>
      let pwHash := if pw == "" then none else some (h pw)
      match ws_update_row_by_key_users users username role_new full_name active pwHash with
      | some users' => .updated users'
      | none => .updateFailed

lemma find?_pre_append {α : Type} (p : α → Bool) (pre : List α) (x : α)
    (post : List α) (hpre : ∀ v ∈ pre, p v = false) (hx : p x = true) :
    (pre ++ x :: post).find? p = some x := by
  induction pre with
  | nil => simp [List.find?_cons_of_pos _ hx]
  | cons r rs ih =>
    have hr := hpre r (by simp)
    rw [List.cons_append, List.find?_cons_of_neg _ (by simp [hr])]
    exact ih (fun v hv => hpre v (by simp [hv]))

lemma ws_update_users_append (pre : List UserRow) (u₀ : UserRow)
    (post : List UserRow) (k role fn : String) (act : Bool)
    (pwh : Option String)
    (hpre : ∀ v ∈ pre, (normKey v.username == normKey k) = false)
    (hu : (normKey u₀.username == normKey k) = true) :
    ws_update_row_by_key_users (pre ++ u₀ :: post) k role fn act pwh =
      some (pre ++ { u₀ with
                       role := role,
                       full_name := fn,
                       is_active := some (.bool act),
                       password_hash := pwh.getD u₀.password_hash } :: post) := by
  induction pre with
  | nil => simp [ws_update_row_by_key_users, hu]
  | cons r rs ih =>
    have hr := hpre r (by simp)
    simp [ws_update_row_by_key_users, hr,
      ih (fun v hv => hpre v (by simp [hv]))]

/-- **C8.**  For an existing user the `Guardar usuario` handler with an empty
password overwrites only `role`, `full_name` and `is_active` of the matching
row, leaving its `username`, `password_hash` and `created_at` — and every
other row — unchanged; `password_hash` is overwritten exactly when a
password was typed; for a non-existing username a password is mandatory and
a new record is appended. -/
theorem C8_guardar_usuario (h : String → String) (users pre post : List UserRow)
    (u₀ : UserRow) (username role_new full_name : String) (active : Bool)
    (pw now : String) (hstr : pyStrip username = username)
    (hv : validUsername username = true) :
    (users = pre ++ u₀ :: post →
      (∀ v ∈ pre, (normKey v.username == pyLower username) = false) →
      (normKey u₀.username == pyLower username) = true →
      guardarUsuario h users username role_new full_name active pw now =
        .updated (pre ++ { u₀ with
          role := role_new,
          full_name := full_name,
          is_active := some (.bool active),
          password_hash := if pw = "" then u₀.password_hash else h pw } :: post))
    ∧ ((∀ v ∈ users, (normKey v.username == pyLower username) = false) →
        (pw = "" →
          guardarUsuario h users username role_new full_name active pw now =
            .passwordRequired)
        ∧ (pw ≠ "" →
          guardarUsuario h users username role_new full_name active pw now =
            .created (users ++
              [⟨username, h pw, role_new, full_name, some (.bool active), now⟩]))) := by
  have hnorm : normKey username = pyLower username := normKey_of_stripped hstr
  constructor
  · intro hsplit hpre hu
    subst hsplit
    unfold guardarUsuario
    simp only [hstr, hv, not_true, if_false]
    rw [find?_pre_append _ pre u₀ post hpre hu]
    have hupd := ws_update_users_append pre u₀ post username role_new full_name
      active (if pw == "" then none else some (h pw))
      (by intro v hv'; rw [hnorm]; exact hpre v hv')
      (by rw [hnorm]; exact hu)
    rw [hupd]
    by_cases hpw : pw = ""
    · simp [hpw]
    · simp [hpw]
  · intro hnone
    have hfind : (users.find? (fun u => normKey u.username == pyLower username))
        = none := by
      rw [List.find?_eq_none]
      intro v hv'
      simp [hnone v hv']
    constructor
    · intro hpw
      unfold guardarUsuario
      simp only [hstr, hv, not_true, if_false]
      rw [hfind]
      simp [hpw]
    · intro hpw
      unfold guardarUsuario
      simp only [hstr, hv, not_true, if_false]
      rw [hfind]
      simp [hpw]

theorem C8_guardar_usuario_witness :
    guardarUsuario (fun s => s ++ "#")
      [⟨"oper1", "old#", "operador", "Old Name", some (.bool true), "t0"⟩]
      "oper1" "supervisor" "New Name" false "" "t1" =
      .updated [⟨"oper1", "old#", "supervisor", "New Name",
                 some (.bool false), "t0"⟩] := by
  have hmain := (C8_guardar_usuario (fun s => s ++ "#")
    [⟨"oper1", "old#", "operador", "Old Name", some (.bool true), "t0"⟩]
    [] [] ⟨"oper1", "old#", "operador", "Old Name", some (.bool true), "t0"⟩
    "oper1" "supervisor" "New Name" false "" "t1" (by decide) (by decide)).1
    rfl (by intro v hv'; cases hv') (by decide)
  simpa using hmain

/-!
## Weekly window (`monday_to_saturday_range`, Despachos revision)

Dates are proleptic Gregorian ordinals (`datetime.date.toordinal`): ordinal 1
is 0001-01-01, a Monday, so Python's `date.weekday()` is `(ordinal - 1) % 7`
(Monday = 0 … Sunday = 6).
-/

/-- Python `date.weekday()` on the ordinal representation. -/
def weekday (o : Nat) : Nat := (o - 1) % 7

/-- `monday_to_saturday_range(any_day)`:
`monday = any_day - timedelta(days=any_day.weekday())`,
`saturday = monday + timedelta(days=5)`. -/
def monday_to_saturday_range (any_day : Nat) : Nat × Nat :=
  let monday := any_day - weekday any_day
  (monday, monday + 5)

/-- **C5, counterexample.**  `Monday ≤ reference ≤ Saturday` does not hold for
every reference date: ordinal 7 (0001-01-07) is a Sunday (`weekday = 6`), its
window is Monday = 1 to Saturday = 6, and the reference lies outside it. -/
theorem C5_counterexample :
    weekday 7 = 6 ∧
    ¬ ((monday_to_saturday_range 7).1 ≤ 7 ∧ 7 ≤ (monday_to_saturday_range 7).2) := by
  decide

/-- **C5, amended.**  For every reference date the window is computed as
Monday = reference − weekday(reference) and Saturday = Monday + 5, and
Monday ≤ reference always holds; but reference ≤ Saturday holds exactly when
the reference is not a Sunday — on a Sunday the window is the Monday–Saturday
that just ended, one day before the reference. -/
theorem C5_monday_to_saturday_range (o : Nat) (ho : 1 ≤ o) :
    (monday_to_saturday_range o).1 = o - weekday o ∧
    (monday_to_saturday_range o).2 = (monday_to_saturday_range o).1 + 5 ∧
    (monday_to_saturday_range o).1 ≤ o ∧
    (o ≤ (monday_to_saturday_range o).2 ↔ weekday o ≠ 6) := by
  have h1 : (monday_to_saturday_range o).1 = o - (o - 1) % 7 := rfl
  have h2 : (monday_to_saturday_range o).2 = o - (o - 1) % 7 + 5 := rfl
  have h3 : weekday o = (o - 1) % 7 := rfl
  rw [h1, h2, h3]
  omega

theorem C5_monday_to_saturday_range_witness :
    (monday_to_saturday_range 3).1 = 3 - weekday 3 ∧
    (monday_to_saturday_range 3).2 = (monday_to_saturday_range 3).1 + 5 ∧
    (monday_to_saturday_range 3).1 ≤ 3 ∧
    (3 ≤ (monday_to_saturday_range 3).2 ↔ weekday 3 ≠ 6) :=
  C5_monday_to_saturday_range 3 (by decide)

/-!
## Operator submission (`Llenar checklist` → `Enviar a supervisor`)

The drawable-canvas signature is modelled by the grayscale pixel values of
the rendered image (`np.array(img.convert("L"))`) together with the PNG
base64 the canvas encodes to.  `signature_input` models the canvas branch of
the source function: it returns `None` when nothing was drawn or when the
drawing is classified blank, otherwise the base64 blob.
`make_submission_id()` (time prefix + random suffix) is modelled by passing
the generated id as an explicit parameter, and `_today_iso()`/`_now_iso()`
by explicit `today`/`now` parameters.
-/

/-- `(arr < 250).sum()`: number of grayscale pixels darker than 250. -/
def nonWhiteCount (pixels : List Nat) : Nat :=
  (pixels.filter (fun p => decide (p < 250))).length

/-- `signature_input`: `None` when the canvas has no image data, `None` when
fewer than 220 pixels are darker than 250 (blank / near-blank drawing),
otherwise the PNG base64 of the drawing. -/
def signature_input (imageData : Option (List Nat × String)) : Option String :=
  match imageData with
  | none => none
  | some (px, b64) => if nonWhiteCount px < 220 then none else some b64

/-- One checklist line as collected by the form loop: its id and text from
the config, the chosen status, the optional comment, and the uploaded
evidence photo (`(filename, base64)`), which the UI only offers when the
status is `"Operativo con falla"`. -/
structure ItemInput where
  item_id : String
  texto : String
  estado : String
  comentario : String
  photo : Option (String × String)
deriving DecidableEq

/-- `create_submission`: appends one `submissions` row with
`status = "PENDIENTE"` and returns the generated id. -/
def create_submission (s : DBState) (equipo : String) (operador : UserInfo)
    (estado_general nota firma_b64 : String) (sid : String) (today : Nat)
    (now : String) : String × DBState :=
  (sid, { s with submissions := s.submissions ++
    [⟨sid, today, now, equipo, operador.username, operador.full_name,
      estado_general, nota, firma_b64, "PENDIENTE", now⟩] })

/-- `upsert_submission_items`: delete every `submission_items` row whose
(stripped) id matches, then append the new rows. -/
def upsert_submission_items (s : DBState) (sid : String) (rows : List ItemRow) :
    DBState :=
  { s with submission_items :=
      s.submission_items.filter (fun r => !(pyStrip r.submission_id == sid))
        ++ rows }

/-- `upsert_photos`: delete every `photos` row whose (stripped) id matches,
then append the new rows. -/
def upsert_photos (s : DBState) (sid : String) (rows : List PhotoRow) :
    DBState :=
  { s with photos :=
      s.photos.filter (fun r => !(pyStrip r.submission_id == sid)) ++ rows }

/-- Outcome of the `Enviar a supervisor` button handler. -/
inductive SubmitOutcome where
  | missingPhoto
  | missingSignature
  | ok (sid : String)
deriving DecidableEq

def SubmitOutcome.isOk : SubmitOutcome → Bool
  | .ok _ => true
  | _ => false

/-- The `Enviar a supervisor` button handler: reject (no write) when some
item with status `"Operativo con falla"` has no uploaded photo; reject (no
write) when the operator signature is `None`; otherwise create the
submission row, then upsert its item rows and its photo rows (one photo row
per faulty item that has an upload). -/
def enviarASupervisor (s : DBState) (equipo : String) (user : UserInfo)
    (estado_general nota : String) (items : List ItemInput)
    (firma_b64 : Option String) (sid : String) (today : Nat) (now : String) :
    SubmitOutcome × DBState :=
  if items.any (fun it => it.estado == "Operativo con falla" && it.photo.isNone) then
    (.missingPhoto, s)
  else
    match firma_b64 with
    | none => (.missingSignature, s)
    | some firma =>
      let res := create_submission s equipo user estado_general nota firma sid today now
      let items_rows2 := items.map
        (fun it => ItemRow.mk res.1 it.item_id it.texto it.estado it.comentario)
      let photos_rows2 := items.filterMap (fun it =>
        if it.estado == "Operativo con falla" then
          it.photo.map (fun p => PhotoRow.mk res.1 it.item_id p.1 p.2)
        else none)
      let s2 := upsert_submission_items res.2 res.1 items_rows2
      let s3 := upsert_photos s2 res.1 photos_rows2
      (.ok res.1, s3)

/-- **C2.**  With a signature supplied, the submit handler succeeds exactly
when every item whose status is `"Operativo con falla"` carries a photo; and
whenever it rejects for a missing photo, the state is returned untouched —
zero rows are written to `submissions`, `submission_items` and `photos`. -/
theorem C2_submit_iff_photos (s : DBState) (equipo : String) (user : UserInfo)
    (eg nota : String) (items : List ItemInput) (firmaOpt : Option String)
    (sid : String) (today : Nat) (now : String) :
    (firmaOpt ≠ none →
      ((enviarASupervisor s equipo user eg nota items firmaOpt sid today now).1.isOk
          = true ↔
        ∀ it ∈ items, it.estado ≠ "Operativo con falla" ∨ it.photo ≠ none))
    ∧ ((∃ it ∈ items, it.estado = "Operativo con falla" ∧ it.photo = none) →
        enviarASupervisor s equipo user eg nota items firmaOpt sid today now
          = (.missingPhoto, s)) := by
  constructor
  · intro hfirma
    by_cases hmp : items.any
        (fun it => it.estado == "Operativo con falla" && it.photo.isNone) = true
    · rw [List.any_eq_true] at hmp
      obtain ⟨it, hit, hcond⟩ := hmp
      rw [Bool.and_eq_true, beq_iff_eq, Option.isNone_iff_eq_none] at hcond
      unfold enviarASupervisor
      rw [if_pos]
      · simp only [SubmitOutcome.isOk]
        constructor
        · intro hfalse
          cases hfalse
        · intro hall
          rcases hall it hit with hne | hne
          · exact absurd hcond.1 hne
          · exact absurd hcond.2 hne
      · rw [List.any_eq_true]
        exact ⟨it, hit, by rw [Bool.and_eq_true, beq_iff_eq,
          Option.isNone_iff_eq_none]; exact hcond⟩
    · unfold enviarASupervisor
      rw [if_neg hmp]
      cases hf : firmaOpt with
      | none => exact absurd hf hfirma
      | some firma =>
        simp only [SubmitOutcome.isOk]
        constructor
        · intro _ it hit
          by_cases he : it.estado = "Operativo con falla"
          · right
            intro hph
            apply hmp
            rw [List.any_eq_true]
            exact ⟨it, hit, by rw [Bool.and_eq_true, beq_iff_eq,
              Option.isNone_iff_eq_none]; exact ⟨he, hph⟩⟩
          · left
            exact he
        · intro _
          trivial
  · intro ⟨it, hit, hcond⟩
    unfold enviarASupervisor
    rw [if_pos]
    rw [List.any_eq_true]
    exact ⟨it, hit, by rw [Bool.and_eq_true, beq_iff_eq,
      Option.isNone_iff_eq_none]; exact hcond⟩

theorem C2_submit_iff_photos_witness :
    (enviarASupervisor ⟨[], [], [], [], []⟩ "Eq1" ⟨"op", "Op"⟩ "Operativo" ""
        [⟨"I1", "Item 1", "Operativo con falla", "", some ("f.png", "B64")⟩]
        (some "FIRMA") "S1" 3 "t0").1.isOk = true :=
  ((C2_submit_iff_photos ⟨[], [], [], [], []⟩ "Eq1" ⟨"op", "Op"⟩ "Operativo" ""
      [⟨"I1", "Item 1", "Operativo con falla", "", some ("f.png", "B64")⟩]
      (some "FIRMA") "S1" 3 "t0").1 (by decide)).mpr (by decide)

/-- **C3.**  The submit handler rejects — leaving the state untouched —
whenever the operator signature is absent or classified blank (fewer than
220 grayscale pixels darker than 250); and a submission is only created when
a non-blank signature was supplied. -/
theorem C3_signature_required (s : DBState) (equipo : String) (user : UserInfo)
    (eg nota : String) (items : List ItemInput)
    (imageData : Option (List Nat × String)) (sid : String) (today : Nat)
    (now : String) :
    ((imageData = none ∨
        ∃ px b, imageData = some (px, b) ∧ nonWhiteCount px < 220) →
      (enviarASupervisor s equipo user eg nota items (signature_input imageData)
          sid today now).1.isOk = false ∧
      (enviarASupervisor s equipo user eg nota items (signature_input imageData)
          sid today now).2 = s)
    ∧ ((enviarASupervisor s equipo user eg nota items (signature_input imageData)
          sid today now).1.isOk = true →
        ∃ px b, imageData = some (px, b) ∧ 220 ≤ nonWhiteCount px) := by
  constructor
  · intro hblank
    have hsig : signature_input imageData = none := by
      rcases hblank with hnone | ⟨px, b, heq, hcount⟩
      · rw [hnone]
        rfl
      · rw [heq]
        show (if nonWhiteCount px < 220 then none else some b) = none
        rw [if_pos hcount]
    rw [hsig]
    unfold enviarASupervisor
    by_cases hmp : items.any
        (fun it => it.estado == "Operativo con falla" && it.photo.isNone) = true
    · rw [if_pos hmp]
      exact ⟨rfl, rfl⟩
    · rw [if_neg hmp]
      exact ⟨rfl, rfl⟩
  · intro hok
    cases hsig : signature_input imageData with
    | none =>
      rw [hsig] at hok
      unfold enviarASupervisor at hok
      by_cases hmp : items.any
          (fun it => it.estado == "Operativo con falla" && it.photo.isNone) = true
      · rw [if_pos hmp] at hok
        cases hok
      · rw [if_neg hmp] at hok
        cases hok
    | some firma =>
      cases himg : imageData with
      | none =>
        rw [himg] at hsig
        cases hsig
      | some px =>
        obtain ⟨p1, p2⟩ := px
        rw [himg] at hsig
        rw [show signature_input (some (p1, p2)) =
          if nonWhiteCount p1 < 220 then none else some p2 from rfl] at hsig
        by_cases hc : nonWhiteCount p1 < 220
        · rw [if_pos hc] at hsig
          cases hsig
        · exact ⟨p1, p2, rfl, by omega⟩

theorem C3_signature_required_witness :
    (enviarASupervisor ⟨[], [], [], [], []⟩ "Eq1" ⟨"op", "Op"⟩ "Operativo" ""
        [] (signature_input (some ([0, 0, 0], "B"))) "S1" 3 "t0").1.isOk = false ∧
    (enviarASupervisor ⟨[], [], [], [], []⟩ "Eq1" ⟨"op", "Op"⟩ "Operativo" ""
        [] (signature_input (some ([0, 0, 0], "B"))) "S1" 3 "t0").2
      = ⟨[], [], [], [], []⟩ :=
  (C3_signature_required ⟨[], [], [], [], []⟩ "Eq1" ⟨"op", "Op"⟩ "Operativo" ""
      [] (some ([0, 0, 0], "B")) "S1" 3 "t0").1
    (Or.inr ⟨[0, 0, 0], "B", rfl, by decide⟩)

/-!
## Supervisor approval (`Pendientes` → `Aprobar y generar PDF`)
-/

/-- `ws_update_row_by_key` on `submissions` with the update dict
`{"status": ..., "updated_at": ...}`: first row whose key cell matches
case-insensitively gets those two cells overwritten; `none` when no row
matches (the source returns `False`). -/
def ws_update_row_by_key_submissions (subs : List Submission)
    (k status updated_at : String) : Option (List Submission) :=
  match subs with
  | [] => none
  | r :: rest =>
    if normKey r.submission_id == normKey k then
      some ({ r with status := status, updated_at := updated_at } :: rest)
    else
      (ws_update_row_by_key_submissions rest k status updated_at).map (r :: ·)

/-- `get_submission_detail`: the first `submissions` row with the exact id,
the `submission_items` and `photos` rows with the exact id, and the first
`approvals` row with the exact id. -/
def get_submission_detail (s : DBState) (sid : String) :
    Option Submission × List ItemRow × List PhotoRow × Option ApprovalRow :=
  (s.submissions.find? (fun r => r.submission_id == sid),
   s.submission_items.filter (fun r => r.submission_id == sid),
   s.photos.filter (fun r => r.submission_id == sid),
   s.approvals.find? (fun r => r.submission_id == sid))

/-- Models `make_pdf_bytes` followed by base64: the external PDF renderer,
an opaque deterministic function of the submission, its rows and the
approval draft.  No claim depends on the blob's contents, only on where it
is stored. -/
def makePdfB64 (sub : Submission) (items : List ItemRow)
    (photos : List PhotoRow) (supervisor : UserInfo)
    (conforme observaciones firma now : String) : String :=
  "PDF|" ++ sub.submission_id ++ "|" ++ supervisor.username ++ "|" ++ conforme
    ++ "|" ++ observaciones ++ "|" ++ firma ++ "|" ++ now ++ "|"
    ++ toString items.length ++ "|" ++ toString photos.length

/-- `approve_submission`: set the submission's status to `"APROBADO"`
(raising `RuntimeError` — modelled as `some msg` with the state as left at
that point — when the update matches no row), re-read the detail, render the
PDF, then upsert the `approvals` row (delete every row with the stripped
matching id, append the fresh row carrying the PDF blob). -/
def approve_submission (s : DBState) (submission_id : String)
    (supervisor : UserInfo) (conforme observaciones firma_supervisor_b64 : String)
    (now : String) : Option String × DBState :=
  match ws_update_row_by_key_submissions s.submissions submission_id "APROBADO" now with
  | none => (some "No pude actualizar status del submission.", s)
  | some subs' =>
    match (get_submission_detail { s with submissions := subs' } submission_id).1 with
    | none => (some "No encontré submission.", { s with submissions := subs' })
    | some sub =>
      (none, { s with submissions := subs', approvals :=
        s.approvals.filter (fun r => !(pyStrip r.submission_id == submission_id))
          ++ [⟨submission_id, now, supervisor.username, supervisor.full_name,
               conforme, observaciones, firma_supervisor_b64,
               makePdfB64 sub
                 ((get_submission_detail { s with submissions := subs' }
                     submission_id).2.1)
                 ((get_submission_detail { s with submissions := subs' }
                     submission_id).2.2.1)
                 supervisor conforme observaciones firma_supervisor_b64 now⟩] })

lemma ws_update_subs_none (subs : List Submission) (k st up : String)
    (h : ∀ r ∈ subs, (normKey r.submission_id == normKey k) = false) :
    ws_update_row_by_key_submissions subs k st up = none := by
  induction subs with
  | nil => rfl
  | cons a rest ih =>
    unfold ws_update_row_by_key_submissions
    rw [h a (by simp)]
    simp only [Bool.false_eq_true, if_false]
    rw [ih (fun r hr => h r (by simp [hr]))]
    rfl

/-- **C4.**  When the status update inside `approve_submission` locates no
matching submission row, the whole operation fails fatally with the
`RuntimeError` raised there, and the state — in particular the `approvals`
sheet, where the PDF blob would have been stored — is left exactly as it
was: no `Approval` row is appended and no PDF is stored. -/
theorem C4_approve_missing_row_fatal (s : DBState) (sid : String)
    (sup : UserInfo) (conforme observ firma now : String)
    (habs : ∀ sub ∈ s.submissions, normKey sub.submission_id ≠ normKey sid) :
    approve_submission s sid sup conforme observ firma now =
      (some "No pude actualizar status del submission.", s) ∧
    (approve_submission s sid sup conforme observ firma now).2.approvals
      = s.approvals := by
  have hupd : ws_update_row_by_key_submissions s.submissions sid "APROBADO" now
      = none := by
    apply ws_update_subs_none
    intro r hr
    simp [habs r hr]
  unfold approve_submission
  rw [hupd]
  exact ⟨rfl, rfl⟩

theorem C4_approve_missing_row_fatal_witness :
    approve_submission ⟨[], [], [], [], []⟩ "S9" ⟨"sup", "Sup"⟩ "Conforme" ""
        "F" "t2" =
      (some "No pude actualizar status del submission.", ⟨[], [], [], [], []⟩) :=
  (C4_approve_missing_row_fatal ⟨[], [], [], [], []⟩ "S9" ⟨"sup", "Sup"⟩
    "Conforme" "" "F" "t2" (by intro sub hsub; cases hsub)).1

/-- Outcome of the `Aprobar y generar PDF` button handler: the submission id
is missing (`"No existe ese submission."`), it is no longer pending
(`"Ya no está pendiente."` — the spec's `StateError`), the supervisor
signature is missing, the inner `approve_submission` raised (the spec's
`IntegrityError`), or the approval went through. -/
inductive ApproveOutcome where
  | notFound
  | notPending
  | missingSignature
  | integrityError (msg : String)
  | approved
deriving DecidableEq

/-- The `Aprobar y generar PDF` flow of the `Pendientes` page for a typed
submission id (stripped on input): load the detail (exact-id lookup), reject
when the submission is missing, reject when its status is no longer
`"PENDIENTE"` (upper-cased comparison), reject when the supervisor signature
is `None`, otherwise run `approve_submission` — whose state, also when it
raises, is whatever that call left behind. -/
def aprobarYGenerarPDF (s : DBState) (sidRaw : String) (supervisor : UserInfo)
    (conforme observ : String) (firma_sup : Option String) (now : String) :
    ApproveOutcome × DBState :=
  match (get_submission_detail s (pyStrip sidRaw)).1 with
  | none => (.notFound, s)
  | some sub =>
    if ¬ (pyUpper sub.status == "PENDIENTE") then (.notPending, s)
    else
      match firma_sup with
      | none => (.missingSignature, s)
      | some firma =>
        ((match (approve_submission s (pyStrip sidRaw) supervisor conforme
              observ firma now).1 with
          | some msg => ApproveOutcome.integrityError msg
          | none => ApproveOutcome.approved),
         (approve_submission s (pyStrip sidRaw) supervisor conforme
            observ firma now).2)

/-!
## Sequences of operator/supervisor actions

`AppOp` is one user-level write action of the app: an operator submit or a
supervisor approve.  `runOps` folds them over the state, each action keeping
the state its handler left (validation failures leave it untouched).
-/

inductive AppOp where
  | submit (equipo : String) (user : UserInfo) (eg nota : String)
      (items : List ItemInput) (firma : Option String) (sid : String)
      (today : Nat) (now : String)
  | approve (sidRaw : String) (supervisor : UserInfo) (conforme observ : String)
      (firma : Option String) (now : String)

/-- The submission id a submit action would create, `none` for approvals. -/
def submitSidOf : AppOp → Option String
  | .submit _ _ _ _ _ _ sid _ _ => some sid
  | .approve _ _ _ _ _ _ => none

def runOp (s : DBState) : AppOp → DBState
  | .submit equipo user eg nota items firma sid today now =>
      (enviarASupervisor s equipo user eg nota items firma sid today now).2
  | .approve sidRaw sup conforme observ firma now =>
      (aprobarYGenerarPDF s sidRaw sup conforme observ firma now).2

def runOps (s : DBState) (ops : List AppOp) : DBState := ops.foldl runOp s

/-- At most one `approvals` row exists for each submission id. -/
def AtMostOneApprovalPer (apprs : List ApprovalRow) : Prop :=
  ∀ id : String, (apprs.filter (fun r => r.submission_id == id)).length ≤ 1

/-- Every stored submission row matching the id holds status `"APROBADO"`. -/
def StatusApprovedFor (s : DBState) (sid : String) : Prop :=
  ∀ sub ∈ s.submissions, normKey sub.submission_id = normKey sid →
    sub.status = "APROBADO"

lemma approvals_enviar (s : DBState) (equipo : String) (user : UserInfo)
    (eg nota : String) (items : List ItemInput) (firmaOpt : Option String)
    (sid : String) (today : Nat) (now : String) :
    (enviarASupervisor s equipo user eg nota items firmaOpt sid today now).2.approvals
      = s.approvals := by
  unfold enviarASupervisor
  by_cases hmp : items.any
      (fun it => it.estado == "Operativo con falla" && it.photo.isNone) = true
  · rw [if_pos hmp]
  · rw [if_neg hmp]
    cases firmaOpt with
    | none => rfl
    | some firma => rfl

lemma submissions_enviar (s : DBState) (equipo : String) (user : UserInfo)
    (eg nota : String) (items : List ItemInput) (firmaOpt : Option String)
    (sid : String) (today : Nat) (now : String) :
    (enviarASupervisor s equipo user eg nota items firmaOpt sid today now).2.submissions
        = s.submissions ∨
    ∃ row : Submission, row.submission_id = sid ∧ row.status = "PENDIENTE" ∧
      (enviarASupervisor s equipo user eg nota items firmaOpt sid today now).2.submissions
        = s.submissions ++ [row] := by
  unfold enviarASupervisor
  by_cases hmp : items.any
      (fun it => it.estado == "Operativo con falla" && it.photo.isNone) = true
  · rw [if_pos hmp]
    left
    rfl
  · rw [if_neg hmp]
    cases firmaOpt with
    | none => left; rfl
    | some firma =>
      right
      exact ⟨⟨sid, today, now, equipo, user.username, user.full_name, eg, nota,
        firma, "PENDIENTE", now⟩, rfl, rfl, rfl⟩

lemma ws_update_subs_spec (subs : List Submission) (k st up : String)
    (subs' : List Submission)
    (h : ws_update_row_by_key_submissions subs k st up = some subs') :
    ∃ pre r post, subs = pre ++ r :: post ∧
      (∀ v ∈ pre, (normKey v.submission_id == normKey k) = false) ∧
      (normKey r.submission_id == normKey k) = true ∧
      subs' = pre ++ { r with status := st, updated_at := up } :: post := by
  induction subs generalizing subs' with
  | nil => cases h
  | cons a rest ih =>
    unfold ws_update_row_by_key_submissions at h
    by_cases ha : (normKey a.submission_id == normKey k) = true
    · rw [if_pos ha] at h
      injection h with h
      refine ⟨[], a, rest, rfl, ?_, ha, ?_⟩
      · intro v hv
        cases hv
      · rw [← h]
        rfl
    · rw [if_neg ha] at h
      rw [Option.map_eq_some'] at h
      obtain ⟨subs'', hrec, heq⟩ := h
      obtain ⟨pre, r, post, hsplit, hpre, hr, hsubs''⟩ := ih subs'' hrec
      refine ⟨a :: pre, r, post, by rw [hsplit]; rfl, ?_, hr, ?_⟩
      · intro v hv
        rcases List.mem_cons.mp hv with h1 | h1
        · subst h1
          simpa using ha
        · exact hpre v h1
      · rw [← heq, hsubs'']
        rfl

lemma approvals_approve_submission (s : DBState) (sid : String) (sup : UserInfo)
    (conforme observ firma now : String) :
    (approve_submission s sid sup conforme observ firma now).2.approvals
        = s.approvals ∨
    ∃ row : ApprovalRow, row.submission_id = sid ∧
      (approve_submission s sid sup conforme observ firma now).2.approvals =
        s.approvals.filter (fun r => !(pyStrip r.submission_id == sid)) ++ [row] := by
  unfold approve_submission
  cases hupd : ws_update_row_by_key_submissions s.submissions sid "APROBADO" now with
  | none =>
    left
    rfl
  | some subs' =>
    dsimp only
    cases hfind : (get_submission_detail { s with submissions := subs' } sid).1 with
    | none =>
      left
      rfl
    | some sub =>
      right
      exact ⟨_, rfl, rfl⟩

lemma submissions_approve_submission (s : DBState) (sid : String)
    (sup : UserInfo) (conforme observ firma now : String) :
    ((approve_submission s sid sup conforme observ firma now).1
        = some "No pude actualizar status del submission." ∧
      (approve_submission s sid sup conforme observ firma now).2.submissions
        = s.submissions) ∨
    ∃ pre r post, s.submissions = pre ++ r :: post ∧
      (∀ v ∈ pre, (normKey v.submission_id == normKey sid) = false) ∧
      (normKey r.submission_id == normKey sid) = true ∧
      (approve_submission s sid sup conforme observ firma now).2.submissions =
        pre ++ { r with status := "APROBADO", updated_at := now } :: post := by
  unfold approve_submission
  cases hupd : ws_update_row_by_key_submissions s.submissions sid "APROBADO" now with
  | none =>
    left
    exact ⟨rfl, rfl⟩
  | some subs' =>
    dsimp only
    right
    obtain ⟨pre, r, post, hsplit, hpre, hr, hsubs'⟩ :=
      ws_update_subs_spec s.submissions sid "APROBADO" now subs' hupd
    cases hfind : (get_submission_detail { s with submissions := subs' } sid).1 with
    | none =>
      exact ⟨pre, r, post, hsplit, hpre, hr, by rw [← hsubs']⟩
    | some sub =>
      exact ⟨pre, r, post, hsplit, hpre, hr, by rw [← hsubs']⟩

lemma approvals_aprobar (s : DBState) (sidRaw : String) (sup : UserInfo)
    (conforme observ : String) (firmaOpt : Option String) (now : String) :
    (aprobarYGenerarPDF s sidRaw sup conforme observ firmaOpt now).2.approvals
        = s.approvals ∨
    ∃ row : ApprovalRow, row.submission_id = pyStrip sidRaw ∧
      (aprobarYGenerarPDF s sidRaw sup conforme observ firmaOpt now).2.approvals =
        s.approvals.filter
          (fun r => !(pyStrip r.submission_id == pyStrip sidRaw)) ++ [row] := by
  unfold aprobarYGenerarPDF
  cases hfind : (get_submission_detail s (pyStrip sidRaw)).1 with
  | none =>
    left
    rfl
  | some sub =>
    dsimp only
    by_cases hst : (pyUpper sub.status == "PENDIENTE") = true
    · rw [if_neg (not_not_intro hst)]
      cases firmaOpt with
      | none => left; rfl
      | some firma =>
        exact approvals_approve_submission s (pyStrip sidRaw) sup conforme
          observ firma now
    · rw [if_pos hst]
      left
      rfl

lemma submissions_aprobar (s : DBState) (sidRaw : String) (sup : UserInfo)
    (conforme observ : String) (firmaOpt : Option String) (now : String) :
    (aprobarYGenerarPDF s sidRaw sup conforme observ firmaOpt now).2.submissions
        = s.submissions ∨
    ∃ pre r post, s.submissions = pre ++ r :: post ∧
      (aprobarYGenerarPDF s sidRaw sup conforme observ firmaOpt now).2.submissions
        = pre ++ { r with status := "APROBADO", updated_at := now } :: post := by
  unfold aprobarYGenerarPDF
  cases hfind : (get_submission_detail s (pyStrip sidRaw)).1 with
  | none =>
    left
    rfl
  | some sub =>
    dsimp only
    by_cases hst : (pyUpper sub.status == "PENDIENTE") = true
    · rw [if_neg (not_not_intro hst)]
      cases firmaOpt with
      | none => left; rfl
      | some firma =>
        rcases submissions_approve_submission s (pyStrip sidRaw) sup conforme
            observ firma now with ⟨_, heq⟩ | ⟨pre, r, post, hsplit, _, _, heq⟩
        · left
          exact heq
        · right
          exact ⟨pre, r, post, hsplit, heq⟩
    · rw [if_pos hst]
      left
      rfl

lemma approvals_runOp (s : DBState) (op : AppOp) :
    (runOp s op).approvals = s.approvals ∨
    ∃ k row, pyStrip k = k ∧ row.submission_id = k ∧
      (runOp s op).approvals =
        s.approvals.filter (fun r => !(pyStrip r.submission_id == k)) ++ [row] := by
  cases op with
  | submit equipo user eg nota items firma sid today now =>
    left
    exact approvals_enviar s equipo user eg nota items firma sid today now
  | approve sidRaw sup conforme observ firma now =>
    rcases approvals_aprobar s sidRaw sup conforme observ firma now with
      h | ⟨row, hrow, h⟩
    · left
      exact h
    · right
      exact ⟨pyStrip sidRaw, row, pyStrip_idem sidRaw, hrow, h⟩

lemma submissions_runOp (s : DBState) (op : AppOp) :
    (runOp s op).submissions = s.submissions ∨
    (∃ pre r post n, s.submissions = pre ++ r :: post ∧
      (runOp s op).submissions
        = pre ++ { r with status := "APROBADO", updated_at := n } :: post) ∨
    (∃ row : Submission, submitSidOf op = some row.submission_id ∧
      (runOp s op).submissions = s.submissions ++ [row]) := by
  cases op with
  | submit equipo user eg nota items firma sid today now =>
    rcases submissions_enviar s equipo user eg nota items firma sid today now with
      h | ⟨row, hrow, _, h⟩
    · left
      exact h
    · right; right
      exact ⟨row, by rw [submitSidOf, hrow], h⟩
  | approve sidRaw sup conforme observ firma now =>
    rcases submissions_aprobar s sidRaw sup conforme observ firma now with
      h | ⟨pre, r, post, hsplit, h⟩
    · left
      exact h
    · right; left
      exact ⟨pre, r, post, now, hsplit, h⟩

lemma length_filter_filter_le {α : Type} (p q : α → Bool) (l : List α) :
    ((l.filter q).filter p).length ≤ (l.filter p).length := by
  induction l with
  | nil => simp
  | cons a as ih =>
    by_cases hq : q a = true
    · by_cases hp : p a = true
      · simp only [List.filter_cons, hq, hp, if_true]
        simp only [List.length_cons]
        omega
      · simp only [List.filter_cons, hq, hp, if_true, Bool.false_eq_true, if_false]
        exact ih
    · by_cases hp : p a = true
      · simp only [List.filter_cons, hq, hp, if_true, Bool.false_eq_true, if_false]
        have := ih
        simp only [List.length_cons]
        omega
      · simp only [List.filter_cons, hq, hp, Bool.false_eq_true, if_false]
        exact ih

lemma atMostOne_upsert (apprs : List ApprovalRow) (k : String)
    (row : ApprovalRow) (hk : pyStrip k = k) (hrow : row.submission_id = k)
    (h : AtMostOneApprovalPer apprs) :
    AtMostOneApprovalPer
      (apprs.filter (fun r => !(pyStrip r.submission_id == k)) ++ [row]) := by
  intro id
  rw [List.filter_append]
  by_cases hid : id = k
  · subst hid
    have hempty : (apprs.filter (fun r => !(pyStrip r.submission_id == id))).filter
        (fun r => r.submission_id == id) = [] := by
      rw [List.filter_eq_nil_iff]
      intro a ha
      rw [List.mem_filter] at ha
      intro hsid
      rw [beq_iff_eq] at hsid
      have hps : pyStrip a.submission_id = id := by rw [hsid, hk]
      have hne := ha.2
      rw [Bool.not_eq_true', beq_eq_false_iff_ne] at hne
      exact hne hps
    rw [hempty]
    have hrowkeep : ([row].filter (fun r => r.submission_id == id)) = [row] := by
      simp [List.filter, hrow]
    rw [hrowkeep]
    simp
  · have hrowgone : ([row].filter (fun r => r.submission_id == id)) = [] := by
      have : (row.submission_id == id) = false := by
        rw [beq_eq_false_iff_ne, hrow]
        exact fun hc => hid hc.symm
      simp [List.filter, this]
    rw [hrowgone, List.append_nil]
    calc ((apprs.filter (fun r => !(pyStrip r.submission_id == k))).filter
          (fun r => r.submission_id == id)).length
        ≤ (apprs.filter (fun r => r.submission_id == id)).length :=
          length_filter_filter_le _ _ apprs
      _ ≤ 1 := h id

lemma atMostOne_runOps (ops : List AppOp) :
    ∀ s : DBState, AtMostOneApprovalPer s.approvals →
      AtMostOneApprovalPer (runOps s ops).approvals := by
  induction ops with
  | nil =>
    intro s h
    exact h
  | cons op ops ih =>
    intro s h
    show AtMostOneApprovalPer ((op :: ops).foldl runOp s).approvals
    rw [List.foldl_cons]
    apply ih
    rcases approvals_runOp s op with heq | ⟨k, row, hk, hrow, heq⟩
    · rw [heq]
      exact h
    · rw [heq]
      exact atMostOne_upsert s.approvals k row hk hrow h

lemma statusApproved_runOp (s : DBState) (sid : String) (op : AppOp)
    (hfresh : ∀ k, submitSidOf op = some k → normKey k ≠ normKey sid)
    (h : StatusApprovedFor s sid) : StatusApprovedFor (runOp s op) sid := by
  rcases submissions_runOp s op with heq | ⟨pre, r, post, n, hsplit, heq⟩ |
    ⟨row, hrow, heq⟩
  · intro sub hsub hkey
    rw [heq] at hsub
    exact h sub hsub hkey
  · intro sub hsub hkey
    rw [heq] at hsub
    rcases List.mem_append.mp hsub with h1 | h1
    · exact h sub (by rw [hsplit]; exact List.mem_append.mpr (Or.inl h1)) hkey
    · rcases List.mem_cons.mp h1 with h2 | h2
      · rw [h2]
      · exact h sub
          (by rw [hsplit]
              exact List.mem_append.mpr (Or.inr (List.mem_cons.mpr (Or.inr h2))))
          hkey
  · intro sub hsub hkey
    rw [heq] at hsub
    rcases List.mem_append.mp hsub with h1 | h1
    · exact h sub h1 hkey
    · rcases List.mem_cons.mp h1 with h2 | h2
      · exact absurd hkey (by rw [h2]; exact hfresh row.submission_id hrow)
      · cases h2
lemma statusApproved_runOps (ops : List AppOp) (sid : String) :
    ∀ s : DBState,
      (∀ op ∈ ops, ∀ k, submitSidOf op = some k → normKey k ≠ normKey sid) →
      StatusApprovedFor s sid → StatusApprovedFor (runOps s ops) sid := by
  induction ops with
  | nil =>
    intro s _ h
    exact h
  | cons op ops ih =>
    intro s hfresh h
    show StatusApprovedFor ((op :: ops).foldl runOp s) sid
    rw [List.foldl_cons]
    exact ih (runOp s op) (fun o ho => hfresh o (by simp [ho]))
      (statusApproved_runOp s sid op (hfresh op (by simp)) h)

/-- **C1.**  (i) For a stored submission whose status is not `"PENDIENTE"`,
the approve flow on its id is rejected with the not-pending outcome (the
spec's `StateError`) and the state is untouched; (ii) any sequence of
operator/supervisor actions preserves "at most one `approvals` row per
submission id" — a repeated approve never silently adds a second row; and
(iii) after one successful approve the submission's status is `"APROBADO"`
and remains `"APROBADO"` after every further action (submission ids being
unique, and later submits using fresh ids, as the id generator guarantees). -/
theorem C1_approve_state_machine (s : DBState) (sidRaw : String)
    (sup : UserInfo) (conforme observ : String) (firmaOpt : Option String)
    (now : String) :
    (∀ sub, (get_submission_detail s (pyStrip sidRaw)).1 = some sub →
      pyUpper sub.status ≠ "PENDIENTE" →
      aprobarYGenerarPDF s sidRaw sup conforme observ firmaOpt now
        = (.notPending, s))
    ∧ (∀ ops : List AppOp, AtMostOneApprovalPer s.approvals →
        AtMostOneApprovalPer (runOps s ops).approvals)
    ∧ (∀ s', aprobarYGenerarPDF s sidRaw sup conforme observ firmaOpt now
          = (.approved, s') →
        s.submissions.Pairwise
          (fun a b => normKey a.submission_id ≠ normKey b.submission_id) →
        ∀ ops : List AppOp,
          (∀ op ∈ ops, ∀ k, submitSidOf op = some k →
            normKey k ≠ normKey (pyStrip sidRaw)) →
          StatusApprovedFor (runOps s' ops) (pyStrip sidRaw)) := by
  refine ⟨?_, ?_, ?_⟩
  · intro sub hfind hne
    have hcond : ¬ ((pyUpper sub.status == "PENDIENTE") = true) := by
      rw [beq_iff_eq]
      exact hne
    unfold aprobarYGenerarPDF
    rw [hfind]
    dsimp only
    rw [if_pos hcond]
  · intro ops h
    exact atMostOne_runOps ops s h
  · intro s' hsucc huniq ops hfresh
    apply statusApproved_runOps ops (pyStrip sidRaw) s' hfresh
    unfold aprobarYGenerarPDF at hsucc
    cases hfind : (get_submission_detail s (pyStrip sidRaw)).1 with
    | none =>
      rw [hfind] at hsucc
      simp at hsucc
    | some sub =>
      rw [hfind] at hsucc
      dsimp only at hsucc
      by_cases hst : (pyUpper sub.status == "PENDIENTE") = true
      · rw [if_neg (not_not_intro hst)] at hsucc
        cases hfirm : firmaOpt with
        | none =>
          rw [hfirm] at hsucc
          simp at hsucc
        | some firma =>
          rw [hfirm] at hsucc
          have h1 := congrArg Prod.fst hsucc
          have h2 := congrArg Prod.snd hsucc
          dsimp only at h1 h2
          rcases submissions_approve_submission s (pyStrip sidRaw) sup conforme
              observ firma now with ⟨herr, _⟩ | ⟨pre, r, post, hsplit, hpre, hr, heq⟩
          · rw [herr] at h1
            simp at h1
          · intro sub2 hmem hkey
            rw [← h2, heq] at hmem
            rcases List.mem_append.mp hmem with hm | hm
            · have hfalse := hpre sub2 hm
              rw [beq_eq_false_iff_ne] at hfalse
              exact absurd hkey hfalse
            · rcases List.mem_cons.mp hm with hm2 | hm2
              · rw [hm2]
              · rw [hsplit] at huniq
                have hpw := (List.pairwise_append.mp huniq).2.1
                rw [List.pairwise_cons] at hpw
                have hner := hpw.1 sub2 hm2
                rw [beq_iff_eq] at hr
                exact absurd (hr.trans hkey.symm) hner
      · rw [if_pos hst] at hsucc
        simp at hsucc

/-- Concrete state for exercising the approve flow: one already-approved
submission. -/
def dbC1a : DBState :=
  ⟨[], [⟨"S1", 3, "t0", "Eq1", "op", "Op", "Operativo", "", "FO", "APROBADO",
    "t1"⟩], [], [], []⟩

/-- Concrete state for exercising the approve flow: one pending submission. -/
def dbC1b : DBState :=
  ⟨[], [⟨"S1", 3, "t0", "Eq1", "op", "Op", "Operativo", "", "FO", "PENDIENTE",
    "t1"⟩], [], [], []⟩

theorem C1_approve_state_machine_witness :
    aprobarYGenerarPDF dbC1a "S1" ⟨"sup", "Sup"⟩ "Conforme" "" (some "F") "t2"
        = (.notPending, dbC1a)
    ∧ AtMostOneApprovalPer (runOps dbC1a []).approvals
    ∧ StatusApprovedFor
        (runOps (aprobarYGenerarPDF dbC1b "S1" ⟨"sup", "Sup"⟩ "Conforme" ""
          (some "F") "t2").2 []) (pyStrip "S1") := by
  refine ⟨?_, ?_, ?_⟩
  · exact (C1_approve_state_machine dbC1a "S1" ⟨"sup", "Sup"⟩ "Conforme" ""
      (some "F") "t2").1
      ⟨"S1", 3, "t0", "Eq1", "op", "Op", "Operativo", "", "FO", "APROBADO", "t1"⟩
      (by decide) (by decide)
  · exact (C1_approve_state_machine dbC1a "S1" ⟨"sup", "Sup"⟩ "Conforme" ""
      (some "F") "t2").2.1 [] (by intro id; simp [dbC1a])
  · exact (C1_approve_state_machine dbC1b "S1" ⟨"sup", "Sup"⟩ "Conforme" ""
      (some "F") "t2").2.2 _ (by decide) (by simp [dbC1b]) []
      (by intro op hop; cases hop)

/-!
## Weekly export (`export_weekly_xlsx`)

The XLSX artifact is modelled by the three sheets' row lists.  The source
sorts submissions by `created_at` (presentation order inside the sheet,
irrelevant to which ids appear) and parses the `date` column with
`pd.to_datetime(..., errors="coerce")`; dates are modelled as the parsed
ordinals, as elsewhere in this file.  When the submissions sheet is empty the
source writes a workbook with a single empty `submissions` sheet; the absent
`items`/`approvals` sheets are modelled as empty lists.
-/

/-- The three sheets (`submissions`, `items`, `approvals`) of the artifact. -/
structure ExportResult where
  submissions : List Submission
  items : List ItemRow
  approvals : List ApprovalRow
deriving DecidableEq

/-- `export_weekly_xlsx(start_date, end_date)`: submissions with
`start_date <= date <= end_date` (inclusive); items and approvals restricted
to the filtered submission-id set (and empty when either side of the pandas
guard is empty). -/
def export_weekly_xlsx (s : DBState) (start_date end_date : Nat) : ExportResult :=
  if s.submissions.isEmpty then ⟨[], [], []⟩
  else
    let dfw := s.submissions.filter
      (fun r => decide (start_date ≤ r.date) && decide (r.date ≤ end_date))
    let sids := dfw.map (fun r => r.submission_id)
    ⟨dfw,
     if ¬ s.submission_items.isEmpty ∧ ¬ dfw.isEmpty then
       s.submission_items.filter (fun r => sids.contains r.submission_id)
     else [],
     if ¬ s.approvals.isEmpty ∧ ¬ dfw.isEmpty then
       s.approvals.filter (fun r => sids.contains r.submission_id)
     else []⟩

/-- **C6.**  For a stored submission together with an item row and an
approval row bearing its id (ids being unique across submissions), exporting
a window that contains its date yields an artifact carrying that id in all
three sheets, and exporting a window that excludes its date yields an
artifact carrying it in none of them. -/
theorem C6_export_round_trip (s : DBState) (startD endD : Nat)
    (sub : Submission) (item : ItemRow) (appr : ApprovalRow)
    (hsub : sub ∈ s.submissions) (hitem : item ∈ s.submission_items)
    (happr : appr ∈ s.approvals)
    (hisid : item.submission_id = sub.submission_id)
    (hasid : appr.submission_id = sub.submission_id)
    (huniq : ∀ v ∈ s.submissions, v.submission_id = sub.submission_id → v = sub) :
    ((startD ≤ sub.date ∧ sub.date ≤ endD) →
      (∃ r ∈ (export_weekly_xlsx s startD endD).submissions,
        r.submission_id = sub.submission_id) ∧
      (∃ r ∈ (export_weekly_xlsx s startD endD).items,
        r.submission_id = sub.submission_id) ∧
      (∃ r ∈ (export_weekly_xlsx s startD endD).approvals,
        r.submission_id = sub.submission_id))
    ∧ (¬ (startD ≤ sub.date ∧ sub.date ≤ endD) →
      (∀ r ∈ (export_weekly_xlsx s startD endD).submissions,
        r.submission_id ≠ sub.submission_id) ∧
      (∀ r ∈ (export_weekly_xlsx s startD endD).items,
        r.submission_id ≠ sub.submission_id) ∧
      (∀ r ∈ (export_weekly_xlsx s startD endD).approvals,
        r.submission_id ≠ sub.submission_id)) := by
  have hne : s.submissions.isEmpty = false := by
    cases hs : s.submissions with
    | nil => rw [hs] at hsub; cases hsub
    | cons a l => rfl
  constructor
  · intro hwin
    have hsubdfw : sub ∈ s.submissions.filter
        (fun r => decide (startD ≤ r.date) && decide (r.date ≤ endD)) := by
      rw [List.mem_filter]
      exact ⟨hsub, by simp [hwin.1, hwin.2]⟩
    have hdfwne : (s.submissions.filter
        (fun r => decide (startD ≤ r.date) && decide (r.date ≤ endD))).isEmpty
          = false := by
      cases hs : s.submissions.filter
          (fun r => decide (startD ≤ r.date) && decide (r.date ≤ endD)) with
      | nil => rw [hs] at hsubdfw; cases hsubdfw
      | cons a l => rfl
    have hitemsne : s.submission_items.isEmpty = false := by
      cases hs : s.submission_items with
      | nil => rw [hs] at hitem; cases hitem
      | cons a l => rfl
    have happrne : s.approvals.isEmpty = false := by
      cases hs : s.approvals with
      | nil => rw [hs] at happr; cases happr
      | cons a l => rfl
    have hcontains : ((s.submissions.filter
        (fun r => decide (startD ≤ r.date) && decide (r.date ≤ endD))).map
          (fun r => r.submission_id)).contains sub.submission_id = true := by
      rw [List.contains_eq_any_beq, List.any_eq_true]
      exact ⟨sub.submission_id, List.mem_map.mpr ⟨sub, hsubdfw, rfl⟩, by simp⟩
    unfold export_weekly_xlsx
    rw [hne]
    simp only [Bool.false_eq_true, if_false, hitemsne, happrne, hdfwne,
      not_false_iff, true_and, and_self, if_true]
    refine ⟨⟨sub, hsubdfw, rfl⟩, ⟨item, ?_, hisid⟩, ⟨appr, ?_, hasid⟩⟩
    · rw [List.mem_filter]
      exact ⟨hitem, by rw [hisid]; exact hcontains⟩
    · rw [List.mem_filter]
      exact ⟨happr, by rw [hasid]; exact hcontains⟩
  · intro hwin
    have hnotdfw : ∀ r ∈ s.submissions.filter
        (fun r => decide (startD ≤ r.date) && decide (r.date ≤ endD)),
        r.submission_id ≠ sub.submission_id := by
      intro r hr hc
      rw [List.mem_filter] at hr
      have hrs := huniq r hr.1 hc
      subst hrs
      apply hwin
      have := hr.2
      rw [Bool.and_eq_true, decide_eq_true_iff, decide_eq_true_iff] at this
      exact this
    have hnotin : ∀ id2, ((s.submissions.filter
        (fun r => decide (startD ≤ r.date) && decide (r.date ≤ endD))).map
          (fun r => r.submission_id)).contains id2 = true →
        id2 ≠ sub.submission_id := by
      intro id2 hid2
      rw [List.contains_eq_any_beq, List.any_eq_true] at hid2
      obtain ⟨x, hx, hbeq⟩ := hid2
      rw [beq_iff_eq] at hbeq
      obtain ⟨r, hr, hrid⟩ := List.mem_map.mp hx
      rw [hbeq, ← hrid]
      exact hnotdfw r hr
    unfold export_weekly_xlsx
    rw [hne]
    simp only [Bool.false_eq_true, if_false]
    refine ⟨hnotdfw, ?_, ?_⟩
    · intro r hr
      by_cases hguard : ¬ s.submission_items.isEmpty ∧ ¬ (s.submissions.filter
          (fun r => decide (startD ≤ r.date) && decide (r.date ≤ endD))).isEmpty
      · rw [if_pos hguard] at hr
        rw [List.mem_filter] at hr
        exact hnotin r.submission_id hr.2
      · rw [if_neg hguard] at hr
        cases hr
    · intro r hr
      by_cases hguard : ¬ s.approvals.isEmpty ∧ ¬ (s.submissions.filter
          (fun r => decide (startD ≤ r.date) && decide (r.date ≤ endD))).isEmpty
      · rw [if_pos hguard] at hr
        rw [List.mem_filter] at hr
        exact hnotin r.submission_id hr.2
      · rw [if_neg hguard] at hr
        cases hr

theorem C6_export_round_trip_witness :
    (∃ r ∈ (export_weekly_xlsx
      ⟨[], [⟨"S1", 5, "t0", "Eq1", "op", "Op", "Operativo", "", "FO",
        "APROBADO", "t1"⟩],
       [⟨"S1", "I1", "Item 1", "Operativo", ""⟩], [],
       [⟨"S1", "t2", "sup", "Sup", "Conforme", "", "FS", "PDF"⟩]⟩ 4 6).submissions,
      r.submission_id = "S1") ∧
    (∃ r ∈ (export_weekly_xlsx
      ⟨[], [⟨"S1", 5, "t0", "Eq1", "op", "Op", "Operativo", "", "FO",
        "APROBADO", "t1"⟩],
       [⟨"S1", "I1", "Item 1", "Operativo", ""⟩], [],
       [⟨"S1", "t2", "sup", "Sup", "Conforme", "", "FS", "PDF"⟩]⟩ 4 6).items,
      r.submission_id = "S1") ∧
    (∃ r ∈ (export_weekly_xlsx
      ⟨[], [⟨"S1", 5, "t0", "Eq1", "op", "Op", "Operativo", "", "FO",
        "APROBADO", "t1"⟩],
       [⟨"S1", "I1", "Item 1", "Operativo", ""⟩], [],
       [⟨"S1", "t2", "sup", "Sup", "Conforme", "", "FS", "PDF"⟩]⟩ 4 6).approvals,
      r.submission_id = "S1") :=
  (C6_export_round_trip
    ⟨[], [⟨"S1", 5, "t0", "Eq1", "op", "Op", "Operativo", "", "FO",
      "APROBADO", "t1"⟩],
     [⟨"S1", "I1", "Item 1", "Operativo", ""⟩], [],
     [⟨"S1", "t2", "sup", "Sup", "Conforme", "", "FS", "PDF"⟩]⟩ 4 6
    ⟨"S1", 5, "t0", "Eq1", "op", "Op", "Operativo", "", "FO", "APROBADO", "t1"⟩
    ⟨"S1", "I1", "Item 1", "Operativo", ""⟩
    ⟨"S1", "t2", "sup", "Sup", "Conforme", "", "FS", "PDF"⟩
    (by simp) (by simp) (by simp) rfl rfl (by decide)).1 (by decide)
